import Mathlib

/-!
Verification of the Qcuit simulation/compilation core against its
specification.  Each Python component relevant to the checked claims is
shallowly embedded: Python dicts become `Nat → Option Nat` maps or ordered
association lists, numpy complex arrays become `Fin (2^n) → ℂ`, the
stabilizer tableau becomes a function from row/column indices to bits, and
fallible methods return `Except String _`.  Randomness (`np.random`) is
passed in as an explicit sample argument.
-/

namespace Qcuit

/-! ## Layout (src/api/transpiler/topology.py, class Layout)

`logical_to_physical` / `physical_to_logical` are Python dicts from int to
int; we embed them as `Nat → Option Nat`.  `del d[k]` becomes updating the
map with `none`, `d[k] = v` with `some v`. -/

/-- A Python-dict update: point update of a partial map. -/
def mapSet (m : Nat → Option Nat) (k : Nat) (v : Option Nat) : Nat → Option Nat :=
  fun x => if x = k then v else m x

structure Layout where
  l2p : Nat → Option Nat
  p2l : Nat → Option Nat

/-- `Layout.set_mapping(logical, physical)`: evict the stale reverse entry at
the old physical of `logical` and the stale forward entry at the old logical
of `physical`, then set both directions. -/
def Layout.setMapping (L : Layout) (logical physical : Nat) : Layout :=
  let L1 : Layout :=
    match L.l2p logical with
    | some oldPhysical => { L with p2l := mapSet L.p2l oldPhysical none }
    | none => L
  let L2 : Layout :=
    match L1.p2l physical with
    | some oldLogical => { L1 with l2p := mapSet L1.l2p oldLogical none }
    | none => L1
  { l2p := mapSet L2.l2p logical (some physical)
    p2l := mapSet L2.p2l physical (some logical) }

/-- `Layout.swap(physical1, physical2)`: exchange the logical qubits at the
two physical sites; an unmapped side deletes the stale reverse entry. -/
def Layout.swap (L : Layout) (physical1 physical2 : Nat) : Layout :=
  let l1 := L.p2l physical1
  let l2 := L.p2l physical2
  let L1 : Layout :=
    match l1 with
    | some a => { l2p := mapSet L.l2p a (some physical2)
                  p2l := mapSet L.p2l physical2 (some a) }
    | none =>
        if (L.p2l physical2).isSome then { L with p2l := mapSet L.p2l physical2 none }
        else L
  match l2 with
  | some b => { l2p := mapSet L1.l2p b (some physical1)
                p2l := mapSet L1.p2l physical1 (some b) }
  | none =>
      if (L1.p2l physical1).isSome then { L1 with p2l := mapSet L1.p2l physical1 none }
      else L1

/-- `Layout.get_physical`: defaults to the identity on unmapped qubits. -/
def Layout.getPhysical (L : Layout) (logical : Nat) : Nat :=
  (L.l2p logical).getD logical

/-- The empty layout (`Layout()` with no initial mapping). -/
def Layout.empty : Layout := ⟨fun _ => none, fun _ => none⟩

/-- The two maps are mutually inverse partial bijections. -/
def Layout.Inv (L : Layout) : Prop :=
  ∀ l p : Nat, L.l2p l = some p ↔ L.p2l p = some l

/-- An operation on a layout: the public mutators. -/
inductive LayoutOp where
  | set (logical physical : Nat)
  | swp (physical1 physical2 : Nat)

def Layout.applyOp (L : Layout) : LayoutOp → Layout
  | .set l p => L.setMapping l p
  | .swp p1 p2 => L.swap p1 p2

def Layout.applyOps (L : Layout) : List LayoutOp → Layout
  | [] => L
  | op :: ops => (L.applyOp op).applyOps ops

/-- Python `str.upper()` for ASCII gate names (`String.toUpper` does not
reduce definitionally, so we map `Char.toUpper` over the characters). -/
def pyUpper (s : String) : String := ⟨s.data.map Char.toUpper⟩

/-! ## Clifford kernel (src/api/kernels/clifford.py)

The tableau is a numpy `2n × (2n+1)` uint8 matrix; we embed it as a list of
rows of naturals.  Columns `0..n-1` are X bits, `n..2n-1` are Z bits, column
`2n` is the phase (0..3).  The g-function arithmetic in `_rowsum` is done in
ℤ (the Python side wraps in uint8, which agrees modulo 4 since 4 ∣ 256). -/

structure CliffordKernel where
  numQubits : Nat
  tableau : List (List Nat)

namespace CliffordKernel

/-- `initialize(n)`: destabilizer row `i` has a lone X bit at column `i`,
stabilizer row `n+i` a lone Z bit at column `n+i`; phases zero.  All rows
are one-hot at their own index. -/
def init (n : Nat) : CliffordKernel :=
  ⟨n, (List.range (2 * n)).map fun r =>
        (List.range (2 * n + 1)).map fun c => if c = r then 1 else 0⟩

def entry (k : CliffordKernel) (r c : Nat) : Nat := (k.tableau.getD r []).getD c 0

def xBit (k : CliffordKernel) (row qubit : Nat) : Nat := k.entry row qubit

def zBit (k : CliffordKernel) (row qubit : Nat) : Nat := k.entry row (k.numQubits + qubit)

def phase (k : CliffordKernel) (row : Nat) : Nat := k.entry row (2 * k.numQubits)

def setEntry (k : CliffordKernel) (r c v : Nat) : CliffordKernel :=
  { k with tableau := k.tableau.set r ((k.tableau.getD r []).set c v) }

def setX (k : CliffordKernel) (row qubit v : Nat) : CliffordKernel :=
  k.setEntry row qubit (v &&& 1)

def setZ (k : CliffordKernel) (row qubit v : Nat) : CliffordKernel :=
  k.setEntry row (k.numQubits + qubit) (v &&& 1)

def setPhase (k : CliffordKernel) (row v : Nat) : CliffordKernel :=
  k.setEntry row (2 * k.numQubits) (v &&& 3)

/-- The g-function of `_rowsum`: phase contribution of multiplying the
Pauli `(x_i, z_i)` onto `(x_h, z_h)` on one qubit. -/
def gFun (xi zi xh zh : Nat) : Int :=
  if xi = 0 ∧ zi = 0 then 0
  else if xi = 1 ∧ zi = 1 then (zh : Int) - (xh : Int)
  else if xi = 1 ∧ zi = 0 then (zh : Int) * (2 * (xh : Int) - 1)
  else (xh : Int) * (1 - 2 * (zh : Int))

/-- `_rowsum(h, i)`: row `h` becomes row `h` · row `i`; phase accumulates
the g-function sum mod 4, then X and Z bits are XORed columnwise. -/
def rowsum (k : CliffordKernel) (h i : Nat) : CliffordKernel :=
  let n := k.numQubits
  let phaseSum : Int :=
    ((List.range n).map fun j => gFun (k.xBit i j) (k.zBit i j) (k.xBit h j) (k.zBit h j)).sum
  let newPhase : Int := ((k.phase h : Int) + (k.phase i : Int) + phaseSum) % 4
  let k1 := k.setPhase h newPhase.toNat
  (List.range n).foldl
    (fun acc j =>
      (acc.setX h j (acc.xBit h j ^^^ acc.xBit i j)).setZ h j (acc.zBit h j ^^^ acc.zBit i j))
    k1

/-- The H-gate row loop. -/
def hRows (k : CliffordKernel) (target : Nat) : CliffordKernel :=
  (List.range (2 * k.numQubits)).foldl
    (fun acc row =>
      let x := acc.xBit row target
      let z := acc.zBit row target
      let acc := acc.setPhase row ((acc.phase row + 2 * (x &&& z)) % 4)
      (acc.setX row target z).setZ row target x)
    k

/-- The S-gate row loop. -/
def sRows (k : CliffordKernel) (target : Nat) : CliffordKernel :=
  (List.range (2 * k.numQubits)).foldl
    (fun acc row =>
      let x := acc.xBit row target
      let z := acc.zBit row target
      let acc := acc.setPhase row ((acc.phase row + 2 * (x &&& z)) % 4)
      acc.setZ row target (x ^^^ z))
    k

/-- The X-gate row loop: flip phase by 2 on rows whose Z bit is set. -/
def xRows (k : CliffordKernel) (target : Nat) : CliffordKernel :=
  (List.range (2 * k.numQubits)).foldl
    (fun acc row =>
      if acc.zBit row target = 1 then acc.setPhase row ((acc.phase row + 2) % 4) else acc)
    k

/-- The Z-gate row loop: flip phase by 2 on rows whose X bit is set. -/
def zRows (k : CliffordKernel) (target : Nat) : CliffordKernel :=
  (List.range (2 * k.numQubits)).foldl
    (fun acc row =>
      if acc.xBit row target = 1 then acc.setPhase row ((acc.phase row + 2) % 4) else acc)
    k

/-- The extra `+i` loop of the Y gate. -/
def yPhaseRows (k : CliffordKernel) (target : Nat) : CliffordKernel :=
  (List.range (2 * k.numQubits)).foldl
    (fun acc row =>
      if acc.xBit row target ^^^ acc.zBit row target = 1 then
        acc.setPhase row ((acc.phase row + 1) % 4)
      else acc)
    k

/-- `apply_gate(gate_type, target)` for single-qubit Clifford gates; unknown
gate types leave the tableau unchanged. -/
def applyGate (k : CliffordKernel) (gateType0 : String) (target : Nat) : CliffordKernel :=
  let gateType := pyUpper gateType0
  if gateType = "H" then k.hRows target
  else if gateType = "S" then k.sRows target
  else if gateType = "SDG" then ((k.sRows target).sRows target).sRows target
  else if gateType = "X" then k.xRows target
  else if gateType = "Y" then ((k.xRows target).zRows target).yPhaseRows target
  else if gateType = "Z" then k.zRows target
  else k

/-- The CNOT row loop of `apply_controlled_gate`. -/
def cnotRows (k : CliffordKernel) (control target : Nat) : CliffordKernel :=
  (List.range (2 * k.numQubits)).foldl
    (fun acc row =>
      let xc := acc.xBit row control
      let zc := acc.zBit row control
      let xt := acc.xBit row target
      let zt := acc.zBit row target
      let contrib := xc &&& zt &&& ((xt ^^^ zc ^^^ 1) &&& 1)
      let acc := acc.setPhase row ((acc.phase row + 2 * contrib) % 4)
      (acc.setX row target (xt ^^^ xc)).setZ row control (zc ^^^ zt))
    k

/-- `apply_controlled_gate(gate_type, controls, target)`: raises `ValueError`
unless there is exactly one control; CZ is `H(t) · CNOT(c,t) · H(t)`; gate
types other than CNOT/CX/CZ fall through and leave the tableau unchanged. -/
def applyControlledGate (k : CliffordKernel) (gateType0 : String) (controls : List Nat)
    (target : Nat) : Except String CliffordKernel :=
  let gateType := pyUpper gateType0
  match controls with
  | [control] =>
      if gateType = "CNOT" ∨ gateType = "CX" then .ok (k.cnotRows control target)
      else if gateType = "CZ" then
        .ok (((k.applyGate "H" target).cnotRows control target).applyGate "H" target)
      else .ok k
  | _ => .error "Clifford kernel only supports single-control gates"

/-- `apply_swap(q1, q2)`: three CNOTs. -/
def applySwap (k : CliffordKernel) (q1 q2 : Nat) : CliffordKernel :=
  ((k.cnotRows q1 q2).cnotRows q2 q1).cnotRows q1 q2

/-- `measure(qubit)`.  The coin is the `np.random.randint(2)` sample used in
the random branch.  In the deterministic branch the code XORs whole rows —
including the phase column — into a scratch row and returns bit 1 of the
XORed phase. -/
def measure (k : CliffordKernel) (qubit coin : Nat) : Nat × CliffordKernel :=
  let n := k.numQubits
  match (List.range n).find? (fun j => k.xBit (n + j) qubit = 1) with
  | some j =>
      let p := n + j
      let k1 := (List.range (2 * n)).foldl
        (fun acc i => if i ≠ p ∧ acc.xBit i qubit = 1 then acc.rowsum i p else acc) k
      let k2 := { k1 with tableau := k1.tableau.set (p - n) (k1.tableau.getD p []) }
      let k3 := { k2 with tableau := k2.tableau.set p (List.replicate (2 * n + 1) 0) }
      let k4 := (k3.setZ p qubit 1).setPhase p (2 * coin)
      (coin, k4)
  | none =>
      let scratch := (List.range n).foldl
        (fun acc i =>
          if k.xBit i qubit = 1 then acc.zipWith (· ^^^ ·) (k.tableau.getD (i + n) [])
          else acc)
        (List.replicate (2 * n + 1) 0)
      ((scratch.getD (2 * n) 0 >>> 1) &&& 1, k)

/-- The deterministic branch is taken: no stabilizer row anticommutes with
`Z_qubit`. -/
def deterministicAt (k : CliffordKernel) (qubit : Nat) : Bool :=
  (List.range k.numQubits).all fun j => k.xBit (k.numQubits + j) qubit ≠ 1

/-- `rowsum` on detached row vectors: the Pauli-product accumulation with the
g-function phase rule, as described in the specification for the
deterministic measurement branch. -/
def rowsumRow (n : Nat) (hrow irow : List Nat) : List Nat :=
  let phaseSum : Int :=
    ((List.range n).map fun j =>
      gFun (irow.getD j 0) (irow.getD (n + j) 0) (hrow.getD j 0) (hrow.getD (n + j) 0)).sum
  let newPhase : Int := ((hrow.getD (2 * n) 0 : Int) + (irow.getD (2 * n) 0 : Int) + phaseSum) % 4
  ((List.range (2 * n + 1)).map fun c =>
    if c = 2 * n then newPhase.toNat else hrow.getD c 0 ^^^ irow.getD c 0)

/-- The outcome the specification describes for the deterministic branch:
accumulate, with the row-sum g-function phase rule, the product of
stabilizer rows `n+i` over destabilizers `i < n` with `X[i,q] = 1`, and read
the phase of the product as a bit. -/
def detOutcomeRowsum (k : CliffordKernel) (qubit : Nat) : Nat :=
  let n := k.numQubits
  let scratch := (List.range n).foldl
    (fun acc i =>
      if k.xBit i qubit = 1 then rowsumRow n acc (k.tableau.getD (i + n) []) else acc)
    (List.replicate (2 * n + 1) 0)
  (scratch.getD (2 * n) 0 >>> 1) &&& 1

end CliffordKernel

/-! ## Coupling map (src/api/transpiler/topology.py, class CouplingMap)

Python stores `edges` as a set of int pairs and `adjacency` as a dict of
sets; we keep the deduplicated edge list in insertion order and read
adjacency off it (the constructor populates both from the same pairs).
`distance` returns `none` for the float infinity. -/

structure CouplingMap where
  edges : List (Nat × Nat)

/-- The `CouplingMap.__init__` edge-set construction: for each input pair add
`(q1, q2)` and, when bidirectional, `(q2, q1)`. -/
def CouplingMap.ofList (input : List (Nat × Nat)) (bidirectional : Bool := true) : CouplingMap :=
  ⟨input.foldl
    (fun acc (e : Nat × Nat) =>
      let acc := if e ∈ acc then acc else acc ++ [e]
      if bidirectional then
        if (e.2, e.1) ∈ acc then acc else acc ++ [(e.2, e.1)]
      else acc)
    []⟩

/-- `is_connected`: membership in the directed edge set. -/
def CouplingMap.isConnected (cm : CouplingMap) (q1 q2 : Nat) : Bool :=
  (q1, q2) ∈ cm.edges

/-- `neighbors(qubit)`: the adjacency set, read off the edge set. -/
def CouplingMap.neighbors (cm : CouplingMap) (qubit : Nat) : List Nat :=
  (cm.edges.filter fun e => e.1 = qubit).map (·.2)

/-- One BFS step list: expand `(current, dist)`, returning either the found
distance or the new queue/visited. -/
def CouplingMap.bfsAux (cm : CouplingMap) (q2 : Nat) :
    Nat → List Nat → List (Nat × Nat) → Option Nat
  | 0, _, _ => none
  | _ + 1, _, [] => none
  | fuel + 1, visited, (current, dist) :: queue =>
      let step := (cm.neighbors current).foldl
        (fun (acc : Option Nat × List Nat × List (Nat × Nat)) neighbor =>
          match acc with
          | (some d, vs, qs) => (some d, vs, qs)
          | (none, vs, qs) =>
              if neighbor = q2 then (some (dist + 1), vs, qs)
              else if neighbor ∈ vs then (none, vs, qs)
              else (none, vs ++ [neighbor], qs ++ [(neighbor, dist + 1)]))
        ((none : Option Nat), visited, queue)
      match step with
      | (some d, _, _) => some d
      | (none, vs, qs) => cm.bfsAux q2 fuel vs qs

/-- `distance(q1, q2)`: BFS shortest-path length; `none` models
the float infinity.  The fuel bounds the number of queue pops; every pushed
node is freshly marked visited, so `2 * |edges| + 2` pops suffice. -/
def CouplingMap.distance (cm : CouplingMap) (q1 q2 : Nat) : Option Nat :=
  if q1 = q2 then some 0
  else cm.bfsAux q2 (2 * cm.edges.length + 2) [q1] [(q1, 0)]

/-! ## Router layout (src/api/transpiler/topology.py, class Layout, as the
router drives it)

`SABRERouter._find_best_swap` clones a layout via
`Layout(layout.logical_to_physical.copy())`, whose constructor rebuilds the
reverse dict by enumerating the forward dict.  That enumeration needs a
finite representation, so for the router we embed the same `Layout` class
over insertion-ordered association lists (Python dict semantics: update
keeps position, insert appends, delete removes). -/

abbrev PyDict := List (Nat × Nat)

def PyDict.get (d : PyDict) (k : Nat) : Option Nat := (d.find? fun e => e.1 = k).map (·.2)

def PyDict.setKey (d : PyDict) (k v : Nat) : PyDict :=
  if (d.find? fun e => e.1 = k).isSome then d.map fun e => if e.1 = k then (k, v) else e
  else d ++ [(k, v)]

def PyDict.del (d : PyDict) (k : Nat) : PyDict := d.filter fun e => e.1 ≠ k

structure RLayout where
  l2p : PyDict
  p2l : PyDict
deriving DecidableEq, Repr

/-- `Layout.__init__`: store the forward dict, build the reverse dict by
enumeration (later duplicates overwrite earlier ones). -/
def RLayout.ofDict (d : PyDict) : RLayout :=
  ⟨d, (d.map fun e => (e.2, e.1)).foldl (fun acc e => acc.setKey e.1 e.2) []⟩

def RLayout.getPhysical (L : RLayout) (logical : Nat) : Nat := (L.l2p.get logical).getD logical

/-- `Layout.swap` on the dict representation. -/
def RLayout.swap (L : RLayout) (physical1 physical2 : Nat) : RLayout :=
  let l1 := L.p2l.get physical1
  let l2 := L.p2l.get physical2
  let L1 : RLayout :=
    match l1 with
    | some a => ⟨L.l2p.setKey a physical2, L.p2l.setKey physical2 a⟩
    | none =>
        if (L.p2l.get physical2).isSome then ⟨L.l2p, L.p2l.del physical2⟩ else L
  match l2 with
  | some b => ⟨L1.l2p.setKey b physical1, L1.p2l.setKey physical1 b⟩
  | none =>
      if (L1.p2l.get physical1).isSome then ⟨L1.l2p, L1.p2l.del physical1⟩ else L1

/-! ## SABRE router (src/api/transpiler/router.py)

`GateOp.params` is an `Optional[dict]` of floats; the router only copies it,
and every float is a dyadic rational, so `Option ℚ` carries it exactly.
Float costs are embedded as exact rationals with `none` for the float infinity
(`inf` arises only from unreachable distances). -/

structure GateOp where
  gate_type : String
  qubits : List Nat
  params : Option ℚ := none
  timestep : Nat := 0
deriving DecidableEq, Repr

structure SABRERouter where
  coupling_map : CouplingMap
  lookahead_depth : Nat := 20
  decay_factor : ℚ := 1 / 2

/-- `_get_front_layer`: scan the remaining list; a two-qubit gate enters iff
no earlier front gate claimed one of its qubits, a single-qubit gate always
enters, anything else never does; truncate to `lookahead_depth`. -/
def SABRERouter.getFrontLayer (r : SABRERouter) (gates : List GateOp) : List GateOp :=
  let scan := gates.foldl
    (fun (acc : List GateOp × List Nat) gate =>
      let (front, executedQubits) := acc
      if gate.qubits.length = 2 then
        if gate.qubits.any (fun q => q ∈ executedQubits) then acc
        else (front ++ [gate], executedQubits ++ gate.qubits)
      else if gate.qubits.length = 1 then (front ++ [gate], executedQubits)
      else acc)
    ([], [])
  scan.1.take r.lookahead_depth

/-- `_is_executable`: gates on at most one qubit always are; a two-qubit gate
iff its mapped physical pair is connected; larger gates never are. -/
def SABRERouter.isExecutable (r : SABRERouter) (gate : GateOp) (layout : RLayout) : Bool :=
  if gate.qubits.length ≤ 1 then true
  else
    let physicalQubits := gate.qubits.map layout.getPhysical
    if physicalQubits.length = 2 then
      r.coupling_map.isConnected (physicalQubits.getD 0 0) (physicalQubits.getD 1 0)
    else false

/-- Add an optional distance (`none` meaning infinite) scaled by a rational
weight onto an optional cost. -/
def addCost (cost : Option ℚ) (weight : ℚ) (dist : Option Nat) : Option ℚ :=
  match cost, dist with
  | some c, some d => some (c + weight * d)
  | _, _ => none

/-- `cost < best_cost` on floats with `inf` as `none`. -/
def costLT (a b : Option ℚ) : Bool :=
  match a, b with
  | some x, some y => x < y
  | some _, none => true
  | none, _ => false

/-- `_calculate_cost`: front-layer distances plus geometrically decayed
lookahead distances over `all_remaining[len(front):lookahead_depth]`. -/
def SABRERouter.calculateCost (r : SABRERouter) (frontLayer allRemaining : List GateOp)
    (layout : RLayout) : Option ℚ :=
  let frontCost := frontLayer.foldl
    (fun cost gate =>
      if gate.qubits.length = 2 then
        addCost cost 1
          (r.coupling_map.distance (layout.getPhysical (gate.qubits.getD 0 0))
            (layout.getPhysical (gate.qubits.getD 1 0)))
      else cost)
    (some 0)
  let lookahead := (allRemaining.drop frontLayer.length).take
    (r.lookahead_depth - frontLayer.length)
  (lookahead.foldl
    (fun (acc : Option ℚ × ℚ) gate =>
      let (cost, decay) := acc
      if gate.qubits.length = 2 then
        (addCost cost decay
          (r.coupling_map.distance (layout.getPhysical (gate.qubits.getD 0 0))
            (layout.getPhysical (gate.qubits.getD 1 0))),
         decay * r.decay_factor)
      else (cost, decay))
    (frontCost, r.decay_factor)).1

/-- `_find_best_swap`: evaluate every directed coupling edge as a candidate
SWAP on a rebuilt copy of the layout; keep the first strict minimum. -/
def SABRERouter.findBestSwap (r : SABRERouter) (frontLayer allRemaining : List GateOp)
    (layout : RLayout) : Option (Nat × Nat) :=
  (r.coupling_map.edges.foldl
    (fun (acc : Option (Nat × Nat) × Option ℚ) e =>
      let (_bestSwap, bestCost) := acc
      let testLayout := (RLayout.ofDict layout.l2p).swap e.1 e.2
      let cost := r.calculateCost frontLayer allRemaining testLayout
      if costLT cost bestCost then (some e, cost) else acc)
    (none, none)).1

/-- The mutable state of the `route` while-loop. -/
structure RouteState where
  remaining : List GateOp
  layout : RLayout
  routed : List GateOp
  numSwaps : Nat
deriving DecidableEq, Repr

/-- One pass of `for gate in front_layer[:]`: execute every executable front
gate, appending its physical image and erasing it from the remaining list. -/
def SABRERouter.executePass (r : SABRERouter) (front : List GateOp) (st : RouteState) :
    RouteState × Bool :=
  front.foldl
    (fun (acc : RouteState × Bool) gate =>
      let (st, _executedAny) := acc
      if r.isExecutable gate st.layout then
        let routedGate : GateOp :=
          { gate_type := gate.gate_type
            qubits := gate.qubits.map st.layout.getPhysical
            params := gate.params
            timestep := st.routed.length }
        ({ st with
            routed := st.routed ++ [routedGate]
            remaining := st.remaining.erase gate }, true)
      else acc)
    (st, false)

/-- The `route` while-loop, with explicit fuel; `none` means the fuel ran out
(the Python loop is still running). -/
def SABRERouter.routeAux (r : SABRERouter) : Nat → RouteState → Option RouteState
  | 0, _ => none
  | fuel + 1, st =>
      if st.remaining.isEmpty then some st
      else
        let front := r.getFrontLayer st.remaining
        if front.isEmpty then some st
        else
          let (st1, executedAny) := r.executePass front st
          if executedAny then r.routeAux fuel st1
          else
            match r.findBestSwap front st.remaining st.layout with
            | some (p1, p2) =>
                let swapGate : GateOp :=
                  { gate_type := "SWAP", qubits := [p1, p2], timestep := st.routed.length }
                r.routeAux fuel
                  { st with
                      routed := st.routed ++ [swapGate]
                      numSwaps := st.numSwaps + 1
                      layout := st.layout.swap p1 p2 }
            | none => some st

/-- Insertion of a value into a sorted list of naturals. -/
def insertSorted (x : Nat) : List Nat → List Nat
  | [] => [x]
  | y :: ys => if x ≤ y then x :: y :: ys else y :: insertSorted x ys

/-- A structurally recursive sort (the embedding of Python `sorted` on a
duplicate-free list of ints). -/
def sortNat (l : List Nat) : List Nat := l.foldr insertSorted []

/-- A sorted deduplication of the logical qubits a gate list touches
(`sorted(set(...))`). -/
def logicalQubitsOf (gates : List GateOp) : List Nat :=
  sortNat (gates.foldl
    (fun acc g => g.qubits.foldl (fun acc q => if q ∈ acc then acc else acc ++ [q]) acc) [])

/-- `SABRERouter.route`: returns `(routed_gates, final_layout, num_swaps)`,
or `none` if the given fuel does not let the while-loop finish. -/
def SABRERouter.route (r : SABRERouter) (gates : List GateOp) (initialLayout : Option RLayout)
    (fuel : Nat) : Option (List GateOp × RLayout × Nat) :=
  if gates.isEmpty then some ([], initialLayout.getD (RLayout.ofDict []), 0)
  else
    (r.routeAux fuel
      ⟨gates, initialLayout.getD (RLayout.ofDict ((logicalQubitsOf gates).map fun q => (q, q))),
       [], 0⟩).map
      fun st => (st.routed, st.layout, st.numSwaps)

/-- Every two-qubit gate of the list sits on a connected physical edge. -/
def ConnectedOut (cm : CouplingMap) (gates : List GateOp) : Prop :=
  ∀ g ∈ gates, ∀ p1 p2, g.qubits = [p1, p2] → cm.isConnected p1 p2 = true

/-- The looping instance for the router: a CNOT whose two qubits coincide,
on the 2-qubit line. -/
def c4Gate : GateOp := { gate_type := "CNOT", qubits := [1, 1] }

def c4Router : SABRERouter := { coupling_map := CouplingMap.ofList [(0, 1)] }

/-- The identity layout `{1: 1}` the router builds for `c4Gate`. -/
def c4L1 : RLayout := RLayout.ofDict [(1, 1)]

/-- The layout after the oscillating `swap(0, 1)` of the router. -/
def c4L2 : RLayout := c4L1.swap 0 1

/-! ## Circuit DAG (src/api/optimizer/dag.py)

Node ids are the ints behind `"node_<k>"`; the `nodes` dict is an
insertion-ordered association list; predecessor/successor sets are
insertion-ordered duplicate-free lists.  Gate parameters (`params` dicts
holding the float `theta`) are embedded as `Option ℝ`. -/

structure DAGNode where
  id : Nat
  gate_type : String
  qubits : List Nat
  params : Option ℝ
  predecessors : List Nat
  successors : List Nat
  layer : Nat

structure CircuitDAG where
  nodes : List (Nat × DAGNode)
  inputNodes : List Nat
  outputNodes : List Nat
  nodeCounter : Nat

/-- Add an element to an embedded Python set (ordered, no duplicates). -/
def setAdd (l : List Nat) (x : Nat) : List Nat := if x ∈ l then l else l ++ [x]

namespace CircuitDAG

def empty : CircuitDAG := ⟨[], [], [], 0⟩

def getNode (dag : CircuitDAG) (nodeId : Nat) : Option DAGNode :=
  (dag.nodes.find? fun e => e.1 = nodeId).map (·.2)

/-- Replace the stored node with the given id (dict update in place). -/
def setNode (dag : CircuitDAG) (nodeId : Nat) (node : DAGNode) : CircuitDAG :=
  { dag with nodes := dag.nodes.map fun e => if e.1 = nodeId then (nodeId, node) else e }

/-- `add_gate`: fresh id, node appended with empty edge sets. -/
def addGate (dag : CircuitDAG) (gateType : String) (qubits : List Nat) (params : Option ℝ) :
    CircuitDAG × Nat :=
  let nodeId := dag.nodeCounter + 1
  ({ dag with
      nodeCounter := nodeId
      nodes := dag.nodes ++ [(nodeId, ⟨nodeId, gateType, qubits, params, [], [], 0⟩)] },
   nodeId)

/-- `add_edge`: only when both endpoints exist. -/
def addEdge (dag : CircuitDAG) (fromId toId : Nat) : CircuitDAG :=
  match dag.getNode fromId, dag.getNode toId with
  | some fromNode, some _ =>
      let dag := dag.setNode fromId { fromNode with successors := setAdd fromNode.successors toId }
      match dag.getNode toId with
      | some toNode2 =>
          dag.setNode toId { toNode2 with predecessors := setAdd toNode2.predecessors fromId }
      | none => dag
  | _, _ => dag

/-- `remove_node`: rewire predecessors to successors (self-loops excluded by
the `discard`/`update` pair), then drop the node. -/
def removeNode (dag : CircuitDAG) (nodeId : Nat) : CircuitDAG :=
  match dag.getNode nodeId with
  | none => dag
  | some node =>
      let dag := node.predecessors.foldl
        (fun acc predId =>
          match acc.getNode predId with
          | some pred =>
              let succs := (pred.successors.filter (· ≠ nodeId))
              acc.setNode predId
                { pred with successors := node.successors.foldl setAdd succs }
          | none => acc)
        dag
      let dag := node.successors.foldl
        (fun acc succId =>
          match acc.getNode succId with
          | some succ =>
              let preds := (succ.predecessors.filter (· ≠ nodeId))
              acc.setNode succId
                { succ with predecessors := node.predecessors.foldl setAdd preds }
          | none => acc)
        dag
      { dag with
          nodes := dag.nodes.filter fun e => e.1 ≠ nodeId
          inputNodes := dag.inputNodes.filter (· ≠ nodeId)
          outputNodes := dag.outputNodes.filter (· ≠ nodeId) }

/-- The recursive `visit` of `topological_order`, with explicit fuel for the
recursion depth; the state is `(visited, result)`. -/
def visit (dag : CircuitDAG) : Nat → (List Nat × List Nat) → Nat → List Nat × List Nat
  | 0, state, _ => state
  | fuel + 1, (visited, result), nodeId =>
      if nodeId ∈ visited then (visited, result)
      else
        let visited := visited ++ [nodeId]
        let succs := ((dag.getNode nodeId).map (·.successors)).getD []
        let (visited, result) := succs.foldl (dag.visit fuel) (visited, result)
        (visited, result ++ [nodeId])

/-- `topological_order`: post-order DFS from every input node, a safety pass
over all nodes, then reversal. -/
def topologicalOrder (dag : CircuitDAG) : List Nat :=
  let fuel := dag.nodes.length + 1
  let state := dag.inputNodes.foldl (dag.visit fuel) ([], [])
  let state := (dag.nodes.map (·.1)).foldl (dag.visit fuel) state
  state.2.reverse

/-- `_compute_layers`: in topological order, `layer = 1 + max` over
predecessor layers (0 without predecessors). -/
def computeLayers (dag : CircuitDAG) : CircuitDAG :=
  dag.topologicalOrder.foldl
    (fun acc nodeId =>
      match acc.getNode nodeId with
      | none => acc
      | some node =>
          if node.predecessors.isEmpty then acc.setNode nodeId { node with layer := 0 }
          else
            acc.setNode nodeId
              { node with
                  layer := (node.predecessors.map fun p =>
                    ((acc.getNode p).map (·.layer)).getD 0).foldl max 0 + 1 })
    dag

end CircuitDAG

/-- A circuit step record (the JSON-ish dicts `from_circuit` consumes and
`to_circuit` emits); a `some` field is a present key. -/
structure Step where
  gateType : String
  qubit : Option Nat := none
  controls : Option (List Nat) := none
  targets : Option (List Nat) := none
  theta : Option ℝ := none
  timestep : Nat := 0

/-- Stable sort by timestep (Python `sorted(..., key=timestep)`): structural
insertion sort keeping equal keys in order. -/
def insertStepSorted (x : Step) : List Step → List Step
  | [] => [x]
  | y :: ys => if y.timestep < x.timestep then y :: insertStepSorted x ys else x :: y :: ys

def sortSteps (steps : List Step) : List Step := steps.foldr insertStepSorted []

/-- `CircuitDAG.from_circuit`: sort by timestep, skip measurements, wire each
node from the last node touching each of its qubits, then mark input/output
nodes and compute layers. -/
def CircuitDAG.fromCircuit (circuitSteps : List Step) : CircuitDAG :=
  let build := (sortSteps circuitSteps).foldl
    (fun (acc : CircuitDAG × PyDict) step =>
      let (dag, lastOnQubit) := acc
      if pyUpper step.gateType = "MEASUREMENT" then acc
      else
        let qubits :=
          match step.controls with
          | some cs => cs ++ step.targets.getD []
          | none => [step.qubit.getD 0]
        let (dag, nodeId) := dag.addGate (pyUpper step.gateType) qubits step.theta
        qubits.foldl
          (fun (acc2 : CircuitDAG × PyDict) q =>
            let dag2 :=
              match acc2.2.get q with
              | some prev => acc2.1.addEdge prev nodeId
              | none => acc2.1
            (dag2, acc2.2.setKey q nodeId))
          (dag, lastOnQubit))
    (CircuitDAG.empty, [])
  let dag := build.1
  let dag := { dag with
      inputNodes := (dag.nodes.filter fun (e : Nat × DAGNode) => e.2.predecessors.isEmpty).map (fun (e : Nat × DAGNode) => e.1)
      outputNodes := (dag.nodes.filter fun (e : Nat × DAGNode) =>
        e.2.successors.isEmpty).map (fun (e : Nat × DAGNode) => e.1) }
  dag.computeLayers

/-- `CircuitDAG.to_circuit`: emit steps in topological order; the layer is
the timestep; one qubit goes to `qubit`, several to `controls`/`targets`. -/
def CircuitDAG.toCircuit (dag : CircuitDAG) : List Step :=
  dag.topologicalOrder.foldl
    (fun steps nodeId =>
      match dag.getNode nodeId with
      | none => steps
      | some node =>
          steps ++ [{
            gateType := node.gate_type
            timestep := node.layer
            qubit := if node.qubits.length = 1 then some (node.qubits.getD 0 0) else none
            controls := if node.qubits.length = 1 then none else some node.qubits.dropLast
            targets := if node.qubits.length = 1 then none
                       else some [node.qubits.getLast?.getD 0]
            theta := node.params }])
    []

/-! ## Optimizer passes (src/api/optimizer/passes.py)

`GateFusion` compares `abs(new_theta % (2 * pi)) < 1e-10` on floats; the
comparison is passed in as a Boolean-valued function on the fused real
angle (`pymod` below is the Python `%` on reals), so the pass itself stays
executable. -/

/-- Python float `%`: `a % b = a - b * floor(a / b)` (sign of the divisor). -/
noncomputable def pymod (a b : ℝ) : ℝ := a - b * ⌊a / b⌋

/-- The real-number reading of the fusion identity test
`abs(new_theta % (2 * np.pi)) < 1e-10`. -/
noncomputable def negligibleAngle (theta : ℝ) : Prop :=
  |pymod theta (2 * Real.pi)| < 1e-10

def SELF_INVERSE : List String := ["X", "Y", "Z", "H", "CNOT", "CZ", "SWAP"]

def INVERSE_PAIRS : List (String × String) :=
  [("S", "SDG"), ("SDG", "S"), ("T", "TDG"), ("TDG", "T")]

def ROTATION_GATES : List String := ["RX", "RY", "RZ"]

/-- `GateCancellation._gates_cancel`: same qubit set, and either equal
self-inverse types or an inverse pair. -/
def gatesCancel (node1 node2 : DAGNode) : Bool :=
  if ¬(node1.qubits.all (· ∈ node2.qubits) ∧ node2.qubits.all (· ∈ node1.qubits)) then false
  else if node1.gate_type = node2.gate_type ∧ node1.gate_type ∈ SELF_INVERSE then true
  else if (node1.gate_type, node2.gate_type) ∈ INVERSE_PAIRS then true
  else false

/-- `GateCancellation._can_cancel`: no successor of `node1` other than
`node2` may share a qubit with the cancelling pair. -/
def canCancel (node1 node2 : DAGNode) (dag : CircuitDAG) : Bool :=
  let sharedQubits := node1.qubits.filter (· ∈ node2.qubits)
  node1.successors.all fun succId =>
    match dag.getNode succId with
    | some succ =>
        if succId ≠ node2.id then ¬succ.qubits.any (· ∈ sharedQubits) else true
    | none => true

/-- One sweep of the `GateCancellation.run` while-body: collect the pairs to
remove (skipping already-marked nodes), in dict order. -/
def cancellationSweep (dag : CircuitDAG) : List Nat × Bool :=
  dag.nodes.foldl
    (fun (acc : List Nat × Bool) e =>
      let (toRemove, changed) := acc
      let node := e.2
      if e.1 ∈ toRemove then acc
      else
        match node.successors.find? (fun succId =>
          decide (succId ∉ toRemove) &&
          match dag.getNode succId with
          | some succ => gatesCancel node succ && canCancel node succ dag
          | none => false) with
        | some succId => (toRemove ++ [e.1, succId], true)
        | none => (toRemove, changed))
    ([], false)

/-- `GateCancellation.run`, iterated to fixed point with explicit fuel (each
changed sweep removes at least two nodes, so `|nodes| + 1` rounds reach the
fixed point). -/
def gateCancellationRun : Nat → CircuitDAG → CircuitDAG
  | 0, dag => dag
  | fuel + 1, dag =>
      let (toRemove, changed) := cancellationSweep dag
      let dag2 := toRemove.foldl CircuitDAG.removeNode dag
      if changed then gateCancellationRun fuel dag2 else dag2

/-- One sweep of the `GateFusion.run` while-body: the first rotation node
with a same-type same-qubits successor is fused (angles added; if the fused
angle passes the identity test both nodes are removed, otherwise the first
node takes the fused angle and the successor is removed). -/
def fusionSweep (negligible : ℝ → Bool) (dag : CircuitDAG) : CircuitDAG × Bool :=
  let hit := dag.nodes.findSome? fun e =>
    let node := e.2
    if node.gate_type ∈ ROTATION_GATES then
      (node.successors.findSome? fun succId =>
        match dag.getNode succId with
        | some succ =>
            if succ.gate_type = node.gate_type ∧ succ.qubits = node.qubits then
              some (e.1, succId)
            else none
        | none => none)
    else none
  match hit with
  | some (nodeId, succId) =>
      match dag.getNode nodeId, dag.getNode succId with
      | some node, some succ =>
          let theta1 := node.params.getD 0
          let theta2 := succ.params.getD 0
          let newTheta := theta1 + theta2
          if negligible newTheta then
            ((dag.removeNode nodeId).removeNode succId, true)
          else
            (((dag.setNode nodeId { node with params := some newTheta }).removeNode succId),
             true)
      | _, _ => (dag, false)
  | none => (dag, false)

/-- `GateFusion.run` iterated to fixed point with fuel (each fusion removes a
node). -/
def gateFusionRun (negligible : ℝ → Bool) : Nat → CircuitDAG → CircuitDAG
  | 0, dag => dag
  | fuel + 1, dag =>
      let (dag2, changed) := fusionSweep negligible dag
      if changed then gateFusionRun negligible fuel dag2 else dag2

/-- `CommutationAnalysis.run`: the pass detects commuting adjacencies but
performs no rewrite (`pass` in the source), so it returns the DAG
unchanged. -/
def commutationAnalysisRun (dag : CircuitDAG) : CircuitDAG := dag

/-- `optimize_circuit(circuit_steps, level)`: level 0 returns the input;
level 1 runs cancellation then fusion; level 2 additionally runs commutation
analysis and re-runs both. -/
def optimizeCircuit (negligible : ℝ → Bool) (circuitSteps : List Step) (level : Nat) :
    List Step :=
  if level = 0 then circuitSteps
  else
    let dag := CircuitDAG.fromCircuit circuitSteps
    let dag := if 1 ≤ level then
        gateFusionRun negligible (dag.nodes.length + 1)
          (gateCancellationRun (dag.nodes.length + 1) dag)
      else dag
    let dag := if 2 ≤ level then
        gateFusionRun negligible (dag.nodes.length + 1)
          (gateCancellationRun (dag.nodes.length + 1) (commutationAnalysisRun dag))
      else dag
    dag.toCircuit

/-- Spec scenario 4: X, H, X on qubit 0. -/
def c7steps : List Step :=
  [{ gateType := "X", qubit := some 0, timestep := 0 },
   { gateType := "H", qubit := some 0, timestep := 1 },
   { gateType := "X", qubit := some 0, timestep := 2 }]

/-- Spec scenario 3: RZ(π/4) then RZ(−π/4) on qubit 0. -/
noncomputable def c8steps : List Step :=
  [{ gateType := "RZ", qubit := some 0, theta := some (Real.pi / 4), timestep := 0 },
   { gateType := "RZ", qubit := some 0, theta := some (-(Real.pi / 4)), timestep := 1 }]

/-! ## Driving the Clifford kernel through its public operations. -/

inductive CliffordGate where
  | sq (name : String) (target : Nat)
  | ctrl (name : String) (controls : List Nat) (target : Nat)
  | swp (q1 q2 : Nat)

/-- Run a gate list through `apply_gate` / `apply_controlled_gate` /
`apply_swap`; a raised `ValueError` aborts the run. -/
def runClifford (k : CliffordKernel) : List CliffordGate → Except String CliffordKernel
  | [] => .ok k
  | .sq name target :: rest => runClifford (k.applyGate name target) rest
  | .ctrl name controls target :: rest =>
      (k.applyControlledGate name controls target).bind fun k2 => runClifford k2 rest
  | .swp q1 q2 :: rest => runClifford (k.applySwap q1 q2) rest

/-- A 3-qubit Clifford circuit preparing the stabilizer frame
`{+Z₀X₁X₂, +Z₀Y₁Y₂, −Z₀Z₁Z₂}` (the state |0⟩ ⊗ (|01⟩+|10⟩)/√2), on which
qubit 0 measures deterministically. -/
def c2Circuit : List CliffordGate :=
  [.sq "X" 1, .swp 1 2, .sq "H" 1, .ctrl "CNOT" [1] 2, .sq "H" 2, .ctrl "CNOT" [1] 2,
   .sq "H" 1, .ctrl "CZ" [0] 1, .ctrl "CNOT" [2] 0, .ctrl "CNOT" [1] 0, .sq "H" 2, .sq "H" 1]

/-! ## Statevector kernel (src/api/kernels/statevector.py)

The numpy complex-double amplitude array becomes `Fin (2^n) → ℂ`; float
arithmetic is embedded as real arithmetic.  `np.random.random()` samples are
explicit arguments.  The collaboration of the kernel with the noise model is
observable: gate application returns, next to the new state, the list of
qubits passed to `NoiseModel.apply_gate_noise` (`apply_gate` makes one call
with its target when a noise model is attached; `apply_controlled_gate`
contains no call). -/

abbrev SVState (n : Nat) := Fin (2 ^ n) → ℂ

noncomputable def matI : Fin 2 → Fin 2 → ℂ := ![![1, 0], ![0, 1]]
noncomputable def matX : Fin 2 → Fin 2 → ℂ := ![![0, 1], ![1, 0]]
noncomputable def matY : Fin 2 → Fin 2 → ℂ := ![![0, -Complex.I], ![Complex.I, 0]]
noncomputable def matZ : Fin 2 → Fin 2 → ℂ := ![![1, 0], ![0, -1]]
noncomputable def matH : Fin 2 → Fin 2 → ℂ :=
  ![![1 / Real.sqrt 2, 1 / Real.sqrt 2], ![1 / Real.sqrt 2, -(1 / Real.sqrt 2)]]
noncomputable def matS : Fin 2 → Fin 2 → ℂ := ![![1, 0], ![0, Complex.I]]
noncomputable def matSDG : Fin 2 → Fin 2 → ℂ := ![![1, 0], ![0, -Complex.I]]
noncomputable def matT : Fin 2 → Fin 2 → ℂ :=
  ![![1, 0], ![0, Complex.exp (Complex.I * Real.pi / 4)]]
noncomputable def matTDG : Fin 2 → Fin 2 → ℂ :=
  ![![1, 0], ![0, Complex.exp (-(Complex.I * Real.pi / 4))]]

noncomputable def matRX (theta : ℝ) : Fin 2 → Fin 2 → ℂ :=
  ![![Real.cos (theta / 2), -Complex.I * Real.sin (theta / 2)],
    ![-Complex.I * Real.sin (theta / 2), Real.cos (theta / 2)]]

noncomputable def matRY (theta : ℝ) : Fin 2 → Fin 2 → ℂ :=
  ![![Real.cos (theta / 2), -(Real.sin (theta / 2) : ℝ)],
    ![(Real.sin (theta / 2) : ℝ), Real.cos (theta / 2)]]

noncomputable def matRZ (theta : ℝ) : Fin 2 → Fin 2 → ℂ :=
  ![![Complex.exp (-Complex.I * theta / 2), 0], ![0, Complex.exp (Complex.I * theta / 2)]]

/-- The fixed-gate dictionary `GATE_MAP`. -/
noncomputable def GATE_MAP (gateType : String) : Option (Fin 2 → Fin 2 → ℂ) :=
  if gateType = "I" then some matI
  else if gateType = "X" then some matX
  else if gateType = "Y" then some matY
  else if gateType = "Z" then some matZ
  else if gateType = "H" then some matH
  else if gateType = "S" then some matS
  else if gateType = "SDG" then some matSDG
  else if gateType = "T" then some matT
  else if gateType = "TDG" then some matTDG
  else none

/-- The parametric-gate dictionary `PARAMETRIC_GATES`. -/
noncomputable def PARAMETRIC_GATES (gateType : String) : Option (ℝ → Fin 2 → Fin 2 → ℂ) :=
  if gateType = "RX" then some matRX
  else if gateType = "RY" then some matRY
  else if gateType = "RZ" then some matRZ
  else none

/-- `initialize(n)`: amplitude 1 at index 0. -/
noncomputable def svInit (n : Nat) : SVState n := fun i => if i.val = 0 then 1 else 0

/-- Flip bit `target` of a basis index (the pairing `j = i | target_mask` /
`i = j ^ target_mask` of the bit-masked update loops). -/
def flipBit {n : Nat} (i : Fin (2 ^ n)) (target : Fin n) : Fin (2 ^ n) :=
  ⟨i.val ^^^ (1 <<< target.val), by
    apply Nat.xor_lt_two_pow i.isLt
    simpa [Nat.shiftLeft_eq] using Nat.pow_lt_pow_right (by norm_num) target.isLt⟩

/-- `_apply_single_qubit_gate`: each pair `(i, i | 1 << target)` is updated
by the 2×2 matrix. -/
noncomputable def applySingleQubitGate {n : Nat} (gate : Fin 2 → Fin 2 → ℂ) (target : Fin n)
    (s : SVState n) : SVState n :=
  fun i =>
    if i.val.testBit target.val = false then
      gate 0 0 * s i + gate 0 1 * s (flipBit i target)
    else
      gate 1 0 * s (flipBit i target) + gate 1 1 * s i

/-- `apply_gate`: look the matrix up (parametric first), update the state,
and — when a noise model is attached — ask it for post-gate noise on the
target qubit.  Unknown gate types return before any noise call.  The second
component is the list of qubits passed to `apply_gate_noise`. -/
noncomputable def applyGate {n : Nat} (noiseAttached : Bool) (gateType : String) (target : Fin n)
    (params : Option ℝ) (s : SVState n) : SVState n × List Nat :=
  let gt := pyUpper gateType
  match PARAMETRIC_GATES gt with
  | some f =>
      (applySingleQubitGate (f (params.getD 0)) target s,
       if noiseAttached then [target.val] else [])
  | none =>
      match GATE_MAP gt with
      | some gate =>
          (applySingleQubitGate gate target s, if noiseAttached then [target.val] else [])
      | none => (s, [])

/-- `apply_controlled_gate`: bit-masked controlled update.  The Python method
never consults the noise model, so the noise-call list is empty. -/
noncomputable def applyControlledGate {n : Nat} (_noiseAttached : Bool) (gateType : String)
    (controls : List (Fin n)) (target : Fin n) (s : SVState n) : SVState n × List Nat :=
  let gt := pyUpper gateType
  let targetGate :=
    if gt = "CNOT" ∨ gt = "CX" ∨ gt = "CCX" ∨ gt = "CCNOT" ∨ gt = "TOFFOLI" then matX
    else if gt = "CZ" then matZ
    else (GATE_MAP gt).getD matI
  let controlMask := controls.foldl (fun m c => m + (1 <<< c.val)) 0
  let targetMask := 1 <<< target.val
  (fun i =>
    if i.val &&& controlMask = controlMask ∧ i.val &&& targetMask = 0 then
      targetGate 0 0 * s i + targetGate 0 1 * s (flipBit i target)
    else if i.val &&& targetMask ≠ 0 ∧ (i.val ^^^ targetMask) &&& controlMask = controlMask ∧
        (i.val ^^^ targetMask) &&& targetMask = 0 then
      targetGate 1 0 * s (flipBit i target) + targetGate 1 1 * s i
    else s i,
   [])

/-- The `prob_one` accumulation loop of `measure`. -/
noncomputable def probOne {n : Nat} (q : Fin n) (s : SVState n) : ℝ :=
  ∑ i, if (i : Fin (2 ^ n)).val.testBit q.val then Complex.normSq (s i) else 0

/-- The collapse loop of `measure`: zero every amplitude whose bit `q`
disagrees with the outcome. -/
noncomputable def collapse {n : Nat} (q : Fin n) (outcome : Nat) (s : SVState n) : SVState n :=
  fun i => if (if i.val.testBit q.val then (1 : Nat) else 0) ≠ outcome then 0 else s i

/-- The `norm` accumulated over the kept amplitudes during the collapse
loop. -/
noncomputable def collapsedNorm {n : Nat} (q : Fin n) (outcome : Nat) (s : SVState n) : ℝ :=
  ∑ i, if (if (i : Fin (2 ^ n)).val.testBit q.val then (1 : Nat) else 0) ≠ outcome then 0
       else Complex.normSq (s i)

/-- `measure(qubit)` with the `np.random.random()` draw `r` passed in:
sample the outcome, zero the inconsistent amplitudes, and divide by
`sqrt(norm)` when the remaining norm is positive. -/
noncomputable def svMeasure {n : Nat} (q : Fin n) (r : ℝ) (s : SVState n) : Nat × SVState n :=
  let outcome : Nat := if r < probOne q s then 1 else 0
  (outcome,
   if 0 < collapsedNorm q outcome s then
     fun i => collapse q outcome s i / (Real.sqrt (collapsedNorm q outcome s) : ℝ)
   else collapse q outcome s)
theorem Layout.setMapping_inv {L : Layout} (hL : L.Inv) (l p : Nat) :
    (L.setMapping l p).Inv := by
  intro a b
  have hab := hL a b
  have hlb := hL l b
  have hap := hL a p
  unfold Layout.setMapping
  rcases hl : L.l2p l with _ | oldP
  · -- no previous physical for l
    simp only [hl]
    rcases hp : L.p2l p with _ | oldL
    · simp only [hp]
      constructor <;> intro h <;>
        by_cases ha : a = l <;> by_cases hb : b = p <;>
        simp_all [mapSet]
    · simp only [hp]
      have holp := hL oldL p
      have holb := hL oldL b
      constructor <;> intro h <;>
        by_cases ha : a = l <;> by_cases hb : b = p <;>
        by_cases hao : a = oldL <;>
        simp_all [mapSet]
  · -- l was mapped to oldP
    simp only [hl]
    have hop := hL l oldP
    have haop := hL a oldP
    by_cases hpo : p = oldP
    · subst hpo
      simp only [mapSet, if_pos rfl]
      constructor <;> intro h <;>
        by_cases ha : a = l <;> by_cases hb : b = p <;>
        simp_all [mapSet]
    · have hmp : mapSet L.p2l oldP none p = L.p2l p := by
        simp [mapSet, hpo]
      rw [hmp]
      rcases hp : L.p2l p with _ | oldL
      · constructor <;> intro h <;>
          by_cases ha : a = l <;> by_cases hb : b = p <;>
          by_cases hbo : b = oldP <;>
          simp_all [mapSet]
      · have holp := hL oldL p
        have holb := hL oldL b
        constructor <;> intro h <;>
          by_cases ha : a = l <;> by_cases hb : b = p <;>
          by_cases hao : a = oldL <;> by_cases hbo : b = oldP <;>
          simp_all [mapSet]

theorem Layout.swap_inv {L : Layout} (hL : L.Inv) (p1 p2 : Nat) :
    (L.swap p1 p2).Inv := by
  intro a b
  have hab := hL a b
  unfold Layout.swap
  rcases hl1 : L.p2l p1 with _ | a0
  · rcases hl2 : L.p2l p2 with _ | b0
    · -- both unmapped: no-op
      simp only [hl1, hl2, Option.isSome_none, Bool.false_eq_true, if_false]
      exact hab
    · -- p1 unmapped, p2 mapped to b0
      have hp12 : p1 ≠ p2 := by
        intro h; rw [h, hl2] at hl1; exact Option.noConfusion hl1
      have hb0 := (hL b0 p2).mpr hl2
      have hb0b := hL b0 b
      have hap2 := hL a p2
      have hap1 := hL a p1
      simp only [hl1, hl2, Option.isSome_some, if_true]
      constructor <;> intro h <;>
        by_cases ha : a = b0 <;> by_cases hb : b = p1 <;>
        by_cases hbp2 : b = p2 <;>
        simp_all [mapSet]
  · rcases hl2 : L.p2l p2 with _ | b0
    · -- p1 mapped to a0, p2 unmapped
      have hp12 : p1 ≠ p2 := by
        intro h; rw [h, hl2] at hl1; exact Option.noConfusion hl1
      have ha0 := (hL a0 p1).mpr hl1
      have ha0b := hL a0 b
      have hap2 := hL a p2
      have hap1 := hL a p1
      simp only [hl1, hl2, mapSet, hp12, if_neg (Ne.symm hp12)]
      constructor <;> intro h <;>
        by_cases ha : a = a0 <;> by_cases hb : b = p2 <;>
        by_cases hbp1 : b = p1 <;>
        simp_all [mapSet]
    · -- both mapped
      have ha0 := (hL a0 p1).mpr hl1
      have hb0 := (hL b0 p2).mpr hl2
      have ha0b := hL a0 b
      have hb0b := hL b0 b
      have hap1 := hL a p1
      have hap2 := hL a p2
      simp only [hl1, hl2]
      by_cases hp12 : p1 = p2
      · subst hp12
        have hab0 : a0 = b0 := by rw [hl1] at hl2; exact Option.some.inj hl2
        subst hab0
        constructor <;> intro h <;>
          by_cases ha : a = a0 <;> by_cases hb : b = p1 <;>
          simp_all [mapSet]
      · have hab0 : a0 ≠ b0 := by
          intro h; rw [h, hb0] at ha0; exact hp12 (Option.some.inj ha0).symm
        constructor <;> intro h <;>
          by_cases ha : a = a0 <;> by_cases ha2 : a = b0 <;>
          by_cases hb : b = p1 <;> by_cases hb2 : b = p2 <;>
          simp_all [mapSet]

theorem isConnected_of_mem {cm : CouplingMap} {e : Nat × Nat} (h : e ∈ cm.edges) :
    cm.isConnected e.1 e.2 = true := by
  simp only [CouplingMap.isConnected, decide_eq_true_eq]
  exact h

theorem findBestSwap_mem {r : SABRERouter} {front rem : List GateOp} {layout : RLayout}
    {p : Nat × Nat} (h : r.findBestSwap front rem layout = some p) :
    p ∈ r.coupling_map.edges := by
  unfold SABRERouter.findBestSwap at h
  suffices h2 : ∀ (es : List (Nat × Nat)) (acc : Option (Nat × Nat) × Option ℚ),
      (es.foldl
        (fun (acc : Option (Nat × Nat) × Option ℚ) e =>
          let (_bestSwap, bestCost) := acc
          let testLayout := (RLayout.ofDict layout.l2p).swap e.1 e.2
          let cost := r.calculateCost front rem testLayout
          if costLT cost bestCost then (some e, cost) else acc)
        acc).1 = some p → p ∈ es ∨ acc.1 = some p by
    rcases h2 r.coupling_map.edges (none, none) h with h3 | h3
    · exact h3
    · exact Option.noConfusion h3
  intro es
  induction es with
  | nil => intro acc hacc; exact Or.inr hacc
  | cons e es ih =>
      intro acc hacc
      simp only [List.foldl_cons] at hacc
      rcases ih _ hacc with h3 | h3
      · exact Or.inl (List.mem_cons_of_mem _ h3)
      · by_cases hc : costLT (r.calculateCost front rem ((RLayout.ofDict layout.l2p).swap e.1 e.2)) acc.2
        · simp only [hc, if_pos] at h3
          left
          cases h3
          exact List.mem_cons_self _ _
        · simp only [hc] at h3
          exact Or.inr h3

theorem executePass_sound (r : SABRERouter) (front : List GateOp) (st : RouteState)
    (h : ConnectedOut r.coupling_map st.routed) :
    ConnectedOut r.coupling_map ((r.executePass front st).1).routed := by
  unfold SABRERouter.executePass
  suffices h2 : ∀ (fs : List GateOp) (acc : RouteState × Bool),
      ConnectedOut r.coupling_map acc.1.routed →
      ConnectedOut r.coupling_map ((fs.foldl
        (fun (acc : RouteState × Bool) gate =>
          let (st, _executedAny) := acc
          if r.isExecutable gate st.layout then
            let routedGate : GateOp :=
              { gate_type := gate.gate_type
                qubits := gate.qubits.map st.layout.getPhysical
                params := gate.params
                timestep := st.routed.length }
            ({ st with
                routed := st.routed ++ [routedGate]
                remaining := st.remaining.erase gate }, true)
          else acc)
        acc).1).routed from h2 front (st, false) h
  intro fs
  induction fs with
  | nil => intro acc hacc; exact hacc
  | cons gate fs ih =>
      intro acc hacc
      simp only [List.foldl_cons]
      apply ih
      by_cases hex : r.isExecutable gate acc.1.layout
      · simp only [hex, if_pos]
        intro g hg p1 p2 hq
        rcases List.mem_append.mp hg with hg2 | hg2
        · exact hacc g hg2 p1 p2 hq
        · rcases List.mem_singleton.mp hg2 with rfl
          have hq2 : gate.qubits.map acc.1.layout.getPhysical = [p1, p2] := hq
          have hlen : gate.qubits.length = 2 := by
            have h3 := congrArg List.length hq2
            simpa using h3
          unfold SABRERouter.isExecutable at hex
          rw [hlen] at hex
          rw [hq2] at hex
          simpa using hex
      · simp only [hex, if_neg, Bool.false_eq_true]
        exact hacc


theorem routeAux_sound {r : SABRERouter} :
    ∀ (fuel : Nat) (st res : RouteState), ConnectedOut r.coupling_map st.routed →
      r.routeAux fuel st = some res → ConnectedOut r.coupling_map res.routed := by
  intro fuel
  induction fuel with
  | zero => intro st res _ h; exact Option.noConfusion h
  | succ fuel ih =>
      intro st res hst h
      rw [SABRERouter.routeAux] at h
      by_cases hemp : st.remaining.isEmpty
      · rw [if_pos hemp] at h
        cases h
        exact hst
      · rw [if_neg hemp] at h
        by_cases hfr : (r.getFrontLayer st.remaining).isEmpty
        · rw [if_pos hfr] at h
          cases h
          exact hst
        · rw [if_neg hfr] at h
          rcases hep : r.executePass (r.getFrontLayer st.remaining) st with ⟨st1, ea⟩
          rw [hep] at h
          by_cases hea : ea = true
          · subst hea
            simp only [if_pos] at h
            have hst1 : ConnectedOut r.coupling_map st1.routed := by
              have h2 := executePass_sound r (r.getFrontLayer st.remaining) st hst
              rw [hep] at h2
              exact h2
            exact ih st1 res hst1 h
          · simp only [Bool.not_eq_true] at hea
            subst hea
            simp only [Bool.false_eq_true, if_neg, if_false] at h
            rcases hfind : r.findBestSwap (r.getFrontLayer st.remaining) st.remaining st.layout
              with _ | ⟨p1, p2⟩
            · rw [hfind] at h
              cases h
              exact hst
            · rw [hfind] at h
              apply ih _ res _ h
              intro g hg q1 q2 hq
              rcases List.mem_append.mp hg with hg2 | hg2
              · exact hst g hg2 q1 q2 hq
              · rcases List.mem_singleton.mp hg2 with rfl
                have hq2 : [p1, p2] = [q1, q2] := hq
                rcases List.cons.inj hq2 with ⟨rfl, hq3⟩
                rcases List.cons.inj hq3 with ⟨rfl, -⟩
                exact isConnected_of_mem (findBestSwap_mem hfind)


/-- C5: Every two-qubit gate (including inserted SWAPs) in the list returned
by `SABRERouter.route` acts on a pair of physical qubits that forms a
connected edge of the coupling map. -/
theorem claim_C5 (r : SABRERouter) (gates : List GateOp) (initialLayout : Option RLayout)
    (fuel : Nat) (out : List GateOp × RLayout × Nat)
    (h : r.route gates initialLayout fuel = some out) :
    ∀ g ∈ out.1, ∀ p1 p2, g.qubits = [p1, p2] → r.coupling_map.isConnected p1 p2 = true := by
  unfold SABRERouter.route at h
  by_cases hemp : gates.isEmpty
  · rw [if_pos hemp] at h
    cases h
    intro g hg
    exact absurd hg (List.not_mem_nil g)
  · rw [if_neg hemp] at h
    rcases hro : r.routeAux fuel
        ⟨gates,
         initialLayout.getD (RLayout.ofDict ((logicalQubitsOf gates).map fun q => (q, q))),
         [], 0⟩ with _ | st
    · rw [hro] at h
      exact Option.noConfusion h
    · rw [hro] at h
      cases h
      have hsound := routeAux_sound _ _ _ (by intro g hg; exact absurd hg (List.not_mem_nil g)) hro
      exact hsound

theorem getFrontLayer_arity {r : SABRERouter} {gates : List GateOp} :
    ∀ g ∈ r.getFrontLayer gates, g.qubits.length ≤ 2 := by
  unfold SABRERouter.getFrontLayer
  intro g hg
  have hg2 := List.mem_of_mem_take hg
  suffices h2 : ∀ (gs : List GateOp) (acc : List GateOp × List Nat),
      (∀ g0 ∈ acc.1, g0.qubits.length ≤ 2) →
      ∀ g0 ∈ (gs.foldl
        (fun (acc : List GateOp × List Nat) gate =>
          let (front, executedQubits) := acc
          if gate.qubits.length = 2 then
            if gate.qubits.any (fun q => q ∈ executedQubits) then acc
            else (front ++ [gate], executedQubits ++ gate.qubits)
          else if gate.qubits.length = 1 then (front ++ [gate], executedQubits)
          else acc)
        acc).1, g0.qubits.length ≤ 2 by
    exact h2 gates ([], []) (by intro g0 hg0; exact absurd hg0 (List.not_mem_nil g0)) g hg2
  intro gs
  induction gs with
  | nil => intro acc hacc; exact hacc
  | cons gate gs ih =>
      intro acc hacc
      simp only [List.foldl_cons]
      apply ih
      by_cases h2 : gate.qubits.length = 2
      · simp only [h2, if_pos]
        by_cases hany : gate.qubits.any (fun q => q ∈ acc.2)
        · simp only [hany, if_pos]
          exact hacc
        · simp only [hany, Bool.false_eq_true, if_neg, if_false]
          intro g0 hg0
          rcases List.mem_append.mp hg0 with h3 | h3
          · exact hacc g0 h3
          · rcases List.mem_singleton.mp h3 with rfl
            omega
      · simp only [h2, if_neg, if_false]
        by_cases h1 : gate.qubits.length = 1
        · simp only [h1, if_pos]
          intro g0 hg0
          rcases List.mem_append.mp hg0 with h3 | h3
          · exact hacc g0 h3
          · rcases List.mem_singleton.mp h3 with rfl
            omega
        · simp only [h1, Bool.false_eq_true, if_neg, if_false]
          exact hacc

theorem getFrontLayer_empty_of_big {r : SABRERouter} {gates : List GateOp}
    (h : ∀ g ∈ gates, 3 ≤ g.qubits.length) : r.getFrontLayer gates = [] := by
  unfold SABRERouter.getFrontLayer
  suffices h2 : ∀ (gs : List GateOp) (acc : List GateOp × List Nat),
      (∀ g ∈ gs, 3 ≤ g.qubits.length) →
      (gs.foldl
        (fun (acc : List GateOp × List Nat) gate =>
          let (front, executedQubits) := acc
          if gate.qubits.length = 2 then
            if gate.qubits.any (fun q => q ∈ executedQubits) then acc
            else (front ++ [gate], executedQubits ++ gate.qubits)
          else if gate.qubits.length = 1 then (front ++ [gate], executedQubits)
          else acc)
        acc) = acc by
    rw [h2 gates ([], []) h]
    simp
  intro gs
  induction gs with
  | nil => intro acc _; rfl
  | cons gate gs ih =>
      intro acc hgs
      have h3 := hgs gate (List.mem_cons_self _ _)
      have h2 : ¬gate.qubits.length = 2 := by omega
      have h1 : ¬gate.qubits.length = 1 := by omega
      simp only [List.foldl_cons, h2, h1, if_neg, if_false]
      exact ih acc (fun g hg => hgs g (List.mem_cons_of_mem _ hg))

theorem executePass_arity (r : SABRERouter) (front : List GateOp) (st : RouteState)
    (hf : ∀ g ∈ front, g.qubits.length ≤ 2)
    (h : ∀ g ∈ st.routed, g.qubits.length ≤ 2) :
    ∀ g ∈ ((r.executePass front st).1).routed, g.qubits.length ≤ 2 := by
  unfold SABRERouter.executePass
  suffices h2 : ∀ (fs : List GateOp) (acc : RouteState × Bool),
      (∀ g ∈ fs, g.qubits.length ≤ 2) →
      (∀ g ∈ acc.1.routed, g.qubits.length ≤ 2) →
      ∀ g ∈ ((fs.foldl
        (fun (acc : RouteState × Bool) gate =>
          let (st, _executedAny) := acc
          if r.isExecutable gate st.layout then
            let routedGate : GateOp :=
              { gate_type := gate.gate_type
                qubits := gate.qubits.map st.layout.getPhysical
                params := gate.params
                timestep := st.routed.length }
            ({ st with
                routed := st.routed ++ [routedGate]
                remaining := st.remaining.erase gate }, true)
          else acc)
        acc).1).routed, g.qubits.length ≤ 2 from h2 front (st, false) hf h
  intro fs
  induction fs with
  | nil => intro acc _ hacc; exact hacc
  | cons gate fs ih =>
      intro acc hfs hacc
      simp only [List.foldl_cons]
      apply ih _ (fun g hg => hfs g (List.mem_cons_of_mem _ hg))
      by_cases hex : r.isExecutable gate acc.1.layout
      · simp only [hex, if_pos]
        intro g hg
        rcases List.mem_append.mp hg with hg2 | hg2
        · exact hacc g hg2
        · rcases List.mem_singleton.mp hg2 with rfl
          simpa using hfs gate (List.mem_cons_self _ _)
      · simp only [hex, Bool.false_eq_true, if_neg, if_false]
        exact hacc

theorem routeAux_arity {r : SABRERouter} :
    ∀ (fuel : Nat) (st res : RouteState), (∀ g ∈ st.routed, g.qubits.length ≤ 2) →
      r.routeAux fuel st = some res → ∀ g ∈ res.routed, g.qubits.length ≤ 2 := by
  intro fuel
  induction fuel with
  | zero => intro st res _ h; exact Option.noConfusion h
  | succ fuel ih =>
      intro st res hst h
      rw [SABRERouter.routeAux] at h
      by_cases hemp : st.remaining.isEmpty
      · rw [if_pos hemp] at h
        cases h
        exact hst
      · rw [if_neg hemp] at h
        by_cases hfr : (r.getFrontLayer st.remaining).isEmpty
        · rw [if_pos hfr] at h
          cases h
          exact hst
        · rw [if_neg hfr] at h
          rcases hep : r.executePass (r.getFrontLayer st.remaining) st with ⟨st1, ea⟩
          rw [hep] at h
          by_cases hea : ea = true
          · subst hea
            simp only [if_pos] at h
            have hst1 : ∀ g ∈ st1.routed, g.qubits.length ≤ 2 := by
              have h2 := executePass_arity r (r.getFrontLayer st.remaining) st
                getFrontLayer_arity hst
              rw [hep] at h2
              exact h2
            exact ih st1 res hst1 h
          · simp only [Bool.not_eq_true] at hea
            subst hea
            simp only [Bool.false_eq_true, if_neg, if_false] at h
            rcases hfind : r.findBestSwap (r.getFrontLayer st.remaining) st.remaining st.layout
              with _ | ⟨p1, p2⟩
            · rw [hfind] at h
              cases h
              exact hst
            · rw [hfind] at h
              apply ih _ res _ h
              intro g hg
              rcases List.mem_append.mp hg with hg2 | hg2
              · exact hst g hg2
              · rcases List.mem_singleton.mp hg2 with rfl
                rfl

/-- C10: The router never emits a gate on more than two qubits: every gate of
a routed output acts on at most two qubits (a gate with three or more qubits
never enters the front layer), and when the remaining gates all have three or
more qubits the front layer is empty, so `route` returns at once — without
error — with those gates silently omitted. -/
theorem claim_C10 :
    (∀ (r : SABRERouter) (gates : List GateOp) (initialLayout : Option RLayout)
       (fuel : Nat) (out : List GateOp × RLayout × Nat),
       r.route gates initialLayout fuel = some out → ∀ g ∈ out.1, g.qubits.length ≤ 2) ∧
    (∀ (r : SABRERouter) (gates : List GateOp) (initialLayout : Option RLayout) (fuel : Nat),
       (∀ g ∈ gates, 3 ≤ g.qubits.length) →
       ∃ L, r.route gates initialLayout (fuel + 1) = some ([], L, 0)) := by
  constructor
  · intro r gates initialLayout fuel out h
    unfold SABRERouter.route at h
    by_cases hemp : gates.isEmpty
    · rw [if_pos hemp] at h
      cases h
      intro g hg
      exact absurd hg (List.not_mem_nil g)
    · rw [if_neg hemp] at h
      rcases hro : r.routeAux fuel
          ⟨gates,
           initialLayout.getD (RLayout.ofDict ((logicalQubitsOf gates).map fun q => (q, q))),
           [], 0⟩ with _ | st
      · rw [hro] at h
        exact Option.noConfusion h
      · rw [hro] at h
        cases h
        exact routeAux_arity _ _ _ (by intro g hg; exact absurd hg (List.not_mem_nil g)) hro
  · intro r gates initialLayout fuel hbig
    unfold SABRERouter.route
    by_cases hemp : gates.isEmpty
    · exact ⟨initialLayout.getD (RLayout.ofDict []), by rw [if_pos hemp]⟩
    · refine ⟨initialLayout.getD (RLayout.ofDict ((logicalQubitsOf gates).map fun q => (q, q))),
        ?_⟩
      rw [if_neg hemp]
      rw [SABRERouter.routeAux]
      rw [if_neg hemp]
      rw [getFrontLayer_empty_of_big hbig]
      rfl

/-- C10 witness: a lone CCNOT on the 5-qubit line is dropped and `route`
returns an empty output. -/
theorem claim_C10_witness :
    (∀ g ∈ [({ gate_type := "CCNOT", qubits := [0, 1, 2] } : GateOp)], 3 ≤ g.qubits.length) ∧
    ∃ L, ({ coupling_map := CouplingMap.ofList [(0, 1), (1, 2), (2, 3), (3, 4)] } :
        SABRERouter).route [{ gate_type := "CCNOT", qubits := [0, 1, 2] }] none 1 =
      some ([], L, 0) :=
  ⟨by decide, claim_C10.2 _ _ none 0 (by decide)⟩

theorem c4_cost (L : RLayout) : c4Router.calculateCost [c4Gate] [c4Gate] L = some 0 := by
  unfold SABRERouter.calculateCost
  simp only [List.foldl_cons, List.foldl_nil, List.drop_succ_cons, List.drop_nil,
    List.take_nil]
  norm_num [c4Gate, addCost, CouplingMap.distance]

theorem c4_best (L : RLayout) :
    c4Router.findBestSwap [c4Gate] [c4Gate] L = some (0, 1) := by
  unfold SABRERouter.findBestSwap
  have he : c4Router.coupling_map.edges = [(0, 1), (1, 0)] := by decide
  rw [he]
  simp only [List.foldl_cons, List.foldl_nil]
  rw [c4_cost, c4_cost]
  norm_num [costLT]

theorem c4_step1 (fuel : Nat) (routed : List GateOp) (s : Nat) :
    c4Router.routeAux (fuel + 1) ⟨[c4Gate], c4L1, routed, s⟩ =
    c4Router.routeAux fuel
      ⟨[c4Gate], c4L2, routed ++ [⟨"SWAP", [0, 1], none, routed.length⟩], s + 1⟩ := by
  rw [SABRERouter.routeAux]
  dsimp only
  rw [show c4Router.getFrontLayer [c4Gate] = [c4Gate] from by decide]
  simp only [List.isEmpty_cons, Bool.false_eq_true, if_false]
  rw [show c4Router.executePass [c4Gate] ⟨[c4Gate], c4L1, routed, s⟩ =
      (⟨[c4Gate], c4L1, routed, s⟩, false) from rfl]
  dsimp only
  simp only [Bool.false_eq_true, if_false]
  rw [c4_best]
  show c4Router.routeAux fuel ⟨[c4Gate], c4L1.swap 0 1, _, _⟩ = _
  rw [show c4L1.swap 0 1 = c4L2 from rfl]

theorem c4_step2 (fuel : Nat) (routed : List GateOp) (s : Nat) :
    c4Router.routeAux (fuel + 1) ⟨[c4Gate], c4L2, routed, s⟩ =
    c4Router.routeAux fuel
      ⟨[c4Gate], c4L1, routed ++ [⟨"SWAP", [0, 1], none, routed.length⟩], s + 1⟩ := by
  rw [SABRERouter.routeAux]
  dsimp only
  rw [show c4Router.getFrontLayer [c4Gate] = [c4Gate] from by decide]
  simp only [List.isEmpty_cons, Bool.false_eq_true, if_false]
  rw [show c4Router.executePass [c4Gate] ⟨[c4Gate], c4L2, routed, s⟩ =
      (⟨[c4Gate], c4L2, routed, s⟩, false) from rfl]
  dsimp only
  simp only [Bool.false_eq_true, if_false]
  rw [c4_best]
  show c4Router.routeAux fuel ⟨[c4Gate], c4L2.swap 0 1, _, _⟩ = _
  rw [show c4L2.swap 0 1 = c4L1 from rfl]

theorem c4_loop (fuel : Nat) :
    ∀ (routed : List GateOp) (s : Nat),
      c4Router.routeAux fuel ⟨[c4Gate], c4L1, routed, s⟩ = none ∧
      c4Router.routeAux fuel ⟨[c4Gate], c4L2, routed, s⟩ = none := by
  induction fuel with
  | zero => intro routed s; exact ⟨rfl, rfl⟩
  | succ fuel ih =>
      intro routed s
      rw [c4_step1, c4_step2]
      exact ⟨(ih _ _).2, (ih _ _).1⟩

/-- C4: refuted — `SABRERouter.route` does not terminate on every finite
input gate list.  On the two-qubit line, a CNOT whose two qubits coincide is
never executable, every candidate SWAP has cost 0, and `_find_best_swap`
never checks for cost improvement, so the loop applies `swap(0, 1)` forever:
for every fuel bound the loop is still running. -/
theorem claim_C4 : ∀ fuel : Nat, c4Router.route [c4Gate] none fuel = none := by
  intro fuel
  have h := (c4_loop fuel [] 0).1
  unfold SABRERouter.route
  rw [if_neg (by decide)]
  rw [show RLayout.ofDict ((logicalQubitsOf [c4Gate]).map fun q => (q, q)) = c4L1 from by decide]
  rw [show (none : Option RLayout).getD c4L1 = c4L1 from rfl]
  rw [h]
  rfl

/-- C5 witness: routing a single CNOT(0,1) on the 2-qubit line. -/
theorem claim_C5_witness :
    ({ coupling_map := CouplingMap.ofList [(0, 1)] } : SABRERouter).route
        [⟨"CNOT", [0, 1], none, 0⟩] none 2 =
      some ([⟨"CNOT", [0, 1], none, 0⟩], ⟨[(0, 0), (1, 1)], [(0, 0), (1, 1)]⟩, 0) ∧
    ∀ g ∈ [(⟨"CNOT", [0, 1], none, 0⟩ : GateOp)], ∀ p1 p2, g.qubits = [p1, p2] →
      ({ coupling_map := CouplingMap.ofList [(0, 1)] } : SABRERouter).coupling_map.isConnected
        p1 p2 = true :=
  ⟨by decide,
   claim_C5 _ [⟨"CNOT", [0, 1], none, 0⟩] none 2
     ([⟨"CNOT", [0, 1], none, 0⟩], ⟨[(0, 0), (1, 1)], [(0, 0), (1, 1)]⟩, 0) (by decide)⟩

/-- C7: Level-1 `optimize_circuit` on the three-gate circuit X, H, X on
qubit 0 leaves all three gates in the output (cancellation only pairs a node
with a direct successor that is its immediate successor on every shared
qubit, and H sits between the two X gates), whatever Boolean embedding of
the fusion identity test is supplied. -/
theorem claim_C7 : ∀ negligible : ℝ → Bool,
    optimizeCircuit negligible c7steps 1 =
      [{ gateType := "X", qubit := some 0, timestep := 0 },
       { gateType := "H", qubit := some 0, timestep := 1 },
       { gateType := "X", qubit := some 0, timestep := 2 }] := fun _ => rfl

/-- C8: the fused angle of RZ(π/4)·RZ(−π/4) passes the identity test of the code
`|θ mod 2π| < 1e-10`, and level-1 `optimize_circuit` removes both nodes and
returns the empty gate list for every Boolean embedding of that test that
accepts the fused angle. -/
theorem claim_C8 :
    negligibleAngle (Real.pi / 4 + -(Real.pi / 4)) ∧
    ∀ negligible : ℝ → Bool, negligible (Real.pi / 4 + -(Real.pi / 4)) = true →
      optimizeCircuit negligible c8steps 1 = [] := by
  constructor
  · unfold negligibleAngle pymod
    norm_num
  · intro b hb
    have hsweep :
        fusionSweep b (CircuitDAG.fromCircuit c8steps) =
          (if b (Real.pi / 4 + -(Real.pi / 4)) then
            (((CircuitDAG.fromCircuit c8steps).removeNode 1).removeNode 2, true)
          else
            (((CircuitDAG.fromCircuit c8steps).setNode 1
                ⟨1, "RZ", [0], some (Real.pi / 4 + -(Real.pi / 4)), [], [2], 0⟩).removeNode 2,
             true)) := rfl
    rw [hb] at hsweep
    simp only [if_true] at hsweep
    show (gateFusionRun b 3 (gateCancellationRun 3 (CircuitDAG.fromCircuit c8steps))).toCircuit
        = []
    rw [show gateCancellationRun 3 (CircuitDAG.fromCircuit c8steps) =
        CircuitDAG.fromCircuit c8steps from rfl]
    have h3 : gateFusionRun b 3 (CircuitDAG.fromCircuit c8steps) =
        gateFusionRun b 2 (((CircuitDAG.fromCircuit c8steps).removeNode 1).removeNode 2) := by
      show (match fusionSweep b (CircuitDAG.fromCircuit c8steps) with
            | (dag2, changed) => if changed then gateFusionRun b 2 dag2 else dag2) =
          gateFusionRun b 2 (((CircuitDAG.fromCircuit c8steps).removeNode 1).removeNode 2)
      rw [hsweep]
      rfl
    rw [h3]
    rw [show gateFusionRun b 2 (((CircuitDAG.fromCircuit c8steps).removeNode 1).removeNode 2) =
        ((CircuitDAG.fromCircuit c8steps).removeNode 1).removeNode 2 from rfl]
    rfl

/-- C8 witness: with the always-true embedding of the identity test the
optimizer returns the empty list. -/
theorem claim_C8_witness :
    (fun _ : ℝ => true) (Real.pi / 4 + -(Real.pi / 4)) = true ∧
    optimizeCircuit (fun _ : ℝ => true) c8steps 1 = [] :=
  ⟨rfl, claim_C8.2 (fun _ => true) rfl⟩

/-- C6: starting from mutually inverse maps (the empty layout included),
any sequence of `set_mapping` and `swap` calls keeps the logical→physical
and physical→logical maps mutually inverse partial bijections. -/
theorem claim_C6 (L : Layout) (ops : List LayoutOp) (hL : L.Inv) :
    (L.applyOps ops).Inv := by
  induction ops generalizing L with
  | nil => exact hL
  | cons op ops ih =>
      rcases op with ⟨l, p⟩ | ⟨p1, p2⟩
      · exact ih _ (L.setMapping_inv hL l p)
      · exact ih _ (L.swap_inv hL p1 p2)

/-- C6 witness: the empty layout is inverse, and stays so after a
`set_mapping` and a `swap`. -/
theorem claim_C6_witness :
    Layout.empty.Inv ∧
    (Layout.empty.applyOps [LayoutOp.set 0 1, LayoutOp.swp 1 2]).Inv :=
  ⟨fun l p => by simp [Layout.empty],
   claim_C6 Layout.empty [LayoutOp.set 0 1, LayoutOp.swp 1 2]
     (fun l p => by simp [Layout.empty])⟩

set_option maxRecDepth 4000 in
/-- C2: refuted on the code — after `c2Circuit` the measurement of qubit 0
falls in the deterministic branch, where the plain XOR of the phase column
returns 1, but the row-sum g-function accumulation of the same stabilizer
rows (the product demanded by the claim, and the Aaronson–Gottesman rule)
gives phase 0,
i.e. outcome 0 — which is the true outcome for the prepared state
|0⟩ ⊗ (|01⟩+|10⟩)/√2. -/
theorem claim_C2 : ∀ coin : Nat,
    (runClifford (CliffordKernel.init 3) c2Circuit).toOption.map
      (fun k => (k.deterministicAt 0, (k.measure 0 coin).1, k.detOutcomeRowsum 0)) =
      some (true, 1, 0) := fun _ => rfl

/-- C9 (amended): `CliffordKernel.apply_controlled_gate` raises exactly when
the number of controls differs from 1; with exactly one control it returns
normally for every gate type. -/
theorem claim_C9 (k : CliffordKernel) (gateType : String) (controls : List Nat) (target : Nat) :
    (∃ e, k.applyControlledGate gateType controls target = .error e) ↔ controls.length ≠ 1 := by
  rcases controls with _ | ⟨c, _ | ⟨c2, cs⟩⟩
  · simp [CliffordKernel.applyControlledGate]
  · simp only [CliffordKernel.applyControlledGate, List.length_cons, List.length_nil]
    constructor
    · rintro ⟨e, he⟩
      split_ifs at he
    · intro h
      exact absurd rfl h
  · simp [CliffordKernel.applyControlledGate]

/-- C9 counterexample: with zero controls — not "more than one" — the
Clifford kernel still raises. -/
theorem claim_C9_counterexample :
    (CliffordKernel.init 2).applyControlledGate "CNOT" [] 0 =
      .error "Clifford kernel only supports single-control gates" ∧
    ¬ 1 < ([] : List Nat).length := ⟨rfl, by decide⟩

/-- C1 counterexample: with a noise model attached, a CNOT applied through
`apply_controlled_gate` triggers no noise request at all — in particular
none for its target qubit 1 (nor control 0), though the claim requires noise
on every touched qubit. -/
theorem claim_C1_counterexample :
    (applyControlledGate (n := 2) true "CNOT" [0] 1 (svInit 2)).2 = [] ∧
    (1 : Nat) ∉ (applyControlledGate (n := 2) true "CNOT" [0] 1 (svInit 2)).2 :=
  ⟨rfl, by intro h; exact absurd h (List.not_mem_nil 1)⟩

/-- C1 (amended): the noise model is consulted only by `apply_gate`, which
requests post-gate noise exactly for its single target qubit when the gate
type is recognized and a noise model is attached; `apply_controlled_gate`
never consults it. -/
theorem claim_C1 {n : Nat} (noiseAttached : Bool) (gateType : String)
    (controls : List (Fin n)) (target : Fin n) (params : Option ℝ) (s : SVState n) :
    (applyControlledGate noiseAttached gateType controls target s).2 = [] ∧
    (applyGate noiseAttached gateType target params s).2 =
      (if (PARAMETRIC_GATES (pyUpper gateType)).isSome ∨ (GATE_MAP (pyUpper gateType)).isSome
       then (if noiseAttached then [target.val] else []) else []) := by
  constructor
  · rfl
  · rcases hP : PARAMETRIC_GATES (pyUpper gateType) with _ | f
    · rcases hG : GATE_MAP (pyUpper gateType) with _ | g
      · simp [applyGate, hP, hG]
      · simp [applyGate, hP, hG]
    · simp [applyGate, hP]

/-- C3: for a normalized state and a sample `r ∈ [0,1)`, immediately after
`measure(q)` every amplitude whose bit `q` disagrees with the returned
outcome is exactly 0, and the 2-norm of the state is within 1e-9 of 1 (it is
exactly 1 in the real-arithmetic embedding). -/
theorem claim_C3 {n : Nat} (q : Fin n) (r : ℝ) (s : SVState n)
    (hnorm : ∑ i, Complex.normSq (s i) = 1) (hr0 : 0 ≤ r) (hr1 : r < 1) :
    (∀ i : Fin (2 ^ n),
       (if i.val.testBit q.val then (1 : Nat) else 0) ≠ (svMeasure q r s).1 →
       (svMeasure q r s).2 i = 0) ∧
    |Real.sqrt (∑ i, Complex.normSq ((svMeasure q r s).2 i)) - 1| ≤ 1e-9 := by
  have hkey : ∀ oc : Nat,
      collapsedNorm q oc s = ∑ i, Complex.normSq (collapse q oc s i) := by
    intro oc
    unfold collapsedNorm collapse
    apply Finset.sum_congr rfl
    intro i _
    split_ifs <;> simp
  have main : ∀ oc : Nat, (svMeasure q r s).1 = oc → 0 < collapsedNorm q oc s →
      (∀ i : Fin (2 ^ n),
        (if i.val.testBit q.val then (1 : Nat) else 0) ≠ (svMeasure q r s).1 →
        (svMeasure q r s).2 i = 0) ∧
      |Real.sqrt (∑ i, Complex.normSq ((svMeasure q r s).2 i)) - 1| ≤ 1e-9 := by
    intro oc hout hpos
    have hstate : (svMeasure q r s).2 =
        fun i => collapse q oc s i / (Real.sqrt (collapsedNorm q oc s) : ℝ) := by
      unfold svMeasure at hout ⊢
      simp only at hout
      rw [hout]
      simp only [if_pos hpos]
    constructor
    · intro i hi
      rw [hout] at hi
      rw [hstate]
      have hz : collapse q oc s i = 0 := by
        unfold collapse
        rw [if_pos hi]
      simp [hz]
    · have h1 : ∀ i : Fin (2 ^ n),
          Complex.normSq (collapse q oc s i / (Real.sqrt (collapsedNorm q oc s) : ℝ)) =
            Complex.normSq (collapse q oc s i) / collapsedNorm q oc s := by
        intro i
        rw [Complex.normSq_div]
        congr 1
        rw [Complex.normSq_ofReal]
        exact Real.mul_self_sqrt hpos.le
      rw [hstate]
      simp only [h1]
      rw [← Finset.sum_div, ← hkey oc, div_self (ne_of_gt hpos)]
      rw [Real.sqrt_one]
      norm_num
  have hp0 : 0 ≤ probOne q s := by
    apply Finset.sum_nonneg
    intro i _
    split_ifs
    · exact Complex.normSq_nonneg _
    · exact le_rfl
  by_cases hc : r < probOne q s
  · apply main 1
    · simp [svMeasure, hc]
    · have hnormval : collapsedNorm q 1 s = probOne q s := by
        unfold collapsedNorm probOne
        apply Finset.sum_congr rfl
        intro i _
        by_cases hb : i.val.testBit q.val <;> simp [hb]
      rw [hnormval]
      exact lt_of_le_of_lt hr0 hc
  · apply main 0
    · simp [svMeasure, hc]
    · have hsplit : probOne q s + collapsedNorm q 0 s = 1 := by
        rw [← hnorm]
        unfold probOne collapsedNorm
        rw [← Finset.sum_add_distrib]
        apply Finset.sum_congr rfl
        intro i _
        by_cases hb : i.val.testBit q.val <;> simp [hb]
      have hple := not_lt.mp hc
      linarith

/-- C3 witness: measuring qubit 0 of the freshly initialized 1-qubit state
with sample 1/2. -/
theorem claim_C3_witness :
    (∑ i, Complex.normSq (svInit 1 i) = 1) ∧ (0 : ℝ) ≤ 1 / 2 ∧ (1 / 2 : ℝ) < 1 ∧
    ((∀ i : Fin (2 ^ 1),
       (if i.val.testBit (0 : Fin 1).val then (1 : Nat) else 0) ≠
         (svMeasure 0 (1 / 2) (svInit 1)).1 →
       (svMeasure 0 (1 / 2) (svInit 1)).2 i = 0) ∧
     |Real.sqrt (∑ i, Complex.normSq ((svMeasure 0 (1 / 2) (svInit 1)).2 i)) - 1| ≤ 1e-9) :=
  ⟨by simp [svInit, Fin.sum_univ_two], by norm_num, by norm_num,
   claim_C3 0 (1 / 2) (svInit 1) (by simp [svInit, Fin.sum_univ_two]) (by norm_num)
     (by norm_num)⟩

/-- C1 witness: an H gate through `apply_gate` with noise attached requests
noise exactly on its target. -/
theorem claim_C1_witness :
    (applyControlledGate (n := 1) true "CZ" [] 0 (svInit 1)).2 = [] ∧
    (applyGate (n := 1) true "H" 0 none (svInit 1)).2 =
      (if (PARAMETRIC_GATES (pyUpper "H")).isSome ∨ (GATE_MAP (pyUpper "H")).isSome
       then (if true then [(0 : Fin 1).val] else []) else []) :=
  claim_C1 true "H" [] 0 none (svInit 1)

/-- C7 witness: the theorem applied to the always-true identity test. -/
theorem claim_C7_witness :
    optimizeCircuit (fun _ : ℝ => true) c7steps 1 =
      [{ gateType := "X", qubit := some 0, timestep := 0 },
       { gateType := "H", qubit := some 0, timestep := 1 },
       { gateType := "X", qubit := some 0, timestep := 2 }] :=
  claim_C7 (fun _ => true)

/-- C9 witness: two controls raise, matching the amended criterion. -/
theorem claim_C9_witness :
    (∃ e, (CliffordKernel.init 3).applyControlledGate "CNOT" [0, 1] 2 = .error e) ↔
      ([0, 1] : List Nat).length ≠ 1 :=
  claim_C9 (CliffordKernel.init 3) "CNOT" [0, 1] 2

end Qcuit
